import Mathlib

/-!
Shallow embedding of starsz/logsort (src/logsort.go).

Bytes are modelled as `Nat`, byte streams as `List Nat` (10 = LF, 13 = CR).
`int64` offsets/timestamps are modelled as `Nat`/`Int`; the program only
accumulates list lengths and compares timestamps, so 64-bit wraparound is
never reached and needs no explicit modulus.

The I/O environment of one invocation is reified in `Env`: the result of
`os.Open`, the bytes of the source file (the target of `ReadAt`), the result
of constructing and draining the gzip reader, and an optional read error
surfaced by `bufio.Scanner.Err` after a given number of scanned tokens.
Write-side I/O errors (`os.Create`, `Write`, `Flush` failures) are outside
the model: the destination is an in-memory byte sink.  `DstGzip` only
interposes a compression filter on the destination bytes, so the model
records the logical (pre-compression) bytes written.
-/

namespace Logsort

/-- Action defined the read line behaviour (logsort.go:31-40).
Go treats any value other than SKIP/STOP as "keep"; the model restricts to
the three declared constants, with NOP standing for the keep case. -/
inductive Action where
  | NOP
  | SKIP
  | STOP
deriving DecidableEq

/-- Go `error` values that the program can return.  `userErr` stands for an
arbitrary caller- or OS-supplied error; `wrap` models `errors.Wrap`;
`readAtErr` models the wrapped error from a failed `srcFd.ReadAt`
(logsort.go:193-194: "fd %s read offset %d"). -/
inductive GoErr where
  | needTimeHandler
  | sameSrcAndDst
  | userErr (msg : String)
  | wrap (msg : String) (e : GoErr)
  | readAtErr (file : String) (offset : Nat)
deriving DecidableEq

/-- TimeHandler defined handlers for getting timestamp from each line
(logsort.go:45): `func([]byte) (int64, Action, error)`. -/
abbrev TimeHandler := List Nat → Int × Action × Option GoErr

/-- lineUnit (logsort.go:54-59): offset, length, timestamp, content. -/
structure LineUnit where
  offset : Nat
  length : Nat
  timestamp : Int
  content : Option (List Nat)
deriving DecidableEq

/-- Option (logsort.go:64-70).  Named `SortOption` because `Option` is taken
by the Lean prelude.  `GetTime` is nil-able, hence `Option TimeHandler`. -/
structure SortOption where
  SrcFile : String
  DstFile : String
  SrcGzip : Bool
  DstGzip : Bool
  GetTime : Option TimeHandler

/-- The I/O environment observed by one `SortByOption` invocation. -/
structure Env where
  /-- result of `os.Open(option.SrcFile)`: `some e` means open fails with e. -/
  openErr : Option GoErr
  /-- bytes of the source file on disk; target of `srcFd.ReadAt`. -/
  fileBytes : List Nat
  /-- `some e`: `gzip.NewReader`/decompression fails (consulted when SrcGzip). -/
  gzipErr : Option GoErr
  /-- the decompressed stream when the gzip reader succeeds. -/
  gzipBytes : List Nat
  /-- `some e`: after `scanCut` tokens the scanner stops and `scanner.Err()`
  returns e; `none`: the scanner delivers every token and ends at clean EOF. -/
  scanErr : Option GoErr
  scanCut : Nat
deriving DecidableEq

/-- Observable outcome of `SortByOption`: the returned Go error (`none` is a
nil return), whether `os.Create(option.DstFile)` was reached, and the bytes
written and flushed to the destination. -/
structure SortOutcome where
  ret : Option GoErr
  dstCreated : Bool
  dst : List Nat
deriving DecidableEq

/-- bufio's dropCR: strips one trailing carriage return from a token. -/
def dropCR (l : List Nat) : List Nat :=
  if l.getLast? = some 13 then l.dropLast else l

/-- Worker for `splitSegs`: `cur` is the current (reversed) unfinished
segment. -/
def splitLinesAux : List Nat → List Nat → List (List Nat × Bool)
  | cur, [] => if cur.isEmpty then [] else [(cur.reverse, false)]
  | cur, b :: rest =>
    if b = 10 then (cur.reverse, true) :: splitLinesAux [] rest
    else splitLinesAux (b :: cur) rest

/-- The raw segments `bufio.ScanLines` cuts a stream into: each segment is
the bytes before a LF (LF not included, `dropCR` not yet applied) paired
with `true` when it was LF-terminated.  A final unterminated token is
delivered with `false`; an empty stream yields no tokens. -/
def splitSegs (d : List Nat) : List (List Nat × Bool) := splitLinesAux [] d

/-- Inverse of `splitSegs`: reassembles segments into the stream. -/
def joinSegs : List (List Nat × Bool) → List Nat
  | [] => []
  | (s, b) :: rest => s ++ (if b then [10] else []) ++ joinSegs rest

/-- Number of stream bytes a segment list accounts for (content plus one
terminator byte per terminated segment). -/
def segWeight : List (List Nat × Bool) → Nat
  | [] => 0
  | (s, b) :: rest => s.length + (if b then 1 else 0) + segWeight rest

/-- The byte stream the scanner reads (logsort.go:116-128): the decompressed
stream when `SrcGzip`, the file bytes otherwise. -/
def streamBytes (opt : SortOption) (env : Env) : List Nat :=
  if opt.SrcGzip then env.gzipBytes else env.fileBytes

/-- The tokens the scanner actually delivers: all segments of the stream, or
only the first `scanCut` of them when a read error then ends the scan. -/
def deliveredSegs (opt : SortOption) (env : Env) : List (List Nat × Bool) :=
  match env.scanErr with
  | some _ => (splitSegs (streamBytes opt env)).take env.scanCut
  | none => splitSegs (streamBytes opt env)

/-- First pass of `SortByOption` (logsort.go:130-164): scan each line, ask
`getTime`, on SKIP advance the offset by `len(line)` only (logsort.go:144 —
the terminator byte is not added on this path), on STOP return the
extractor's error as-is (possibly nil, hence `Except (Option GoErr)`),
otherwise record offset/length/timestamp — retaining a copy of the line as
`content` when `srcGzip` (logsort.go:156-159) — and advance by
`len(line) + 1` (logsort.go:162). -/
def buildIndex (getTime : TimeHandler) (srcGzip : Bool) :
    List (List Nat × Bool) → Nat → Except (Option GoErr) (List LineUnit)
  | [], _ => .ok []
  | (seg, _) :: rest, off =>
    let line := dropCR seg
    let r := getTime line
    if r.2.1 = Action.SKIP then
      buildIndex getTime srcGzip rest (off + line.length)
    else if r.2.1 = Action.STOP then
      .error r.2.2
    else
      match buildIndex getTime srcGzip rest (off + line.length + 1) with
      | .error e => .error e
      | .ok recs =>
        .ok ({ offset := off, length := line.length, timestamp := r.1,
               content := if srcGzip then some line else none } :: recs)

/-- One step of the insertion sort `sort.Sort` performs on `linesSort`
(logsort.go:72-78, `Less(i,j) = l[i].timestamp < l[j].timestamp`): the new
element moves left only past strictly greater timestamps, so it lands after
any equal ones. -/
def insertUnit (x : LineUnit) : List LineUnit → List LineUnit
  | [] => [x]
  | y :: ys =>
    if x.timestamp < y.timestamp then x :: y :: ys else y :: insertUnit x ys

/-- `sort.Sort(lines)` (logsort.go:166).  For the slice lengths arising here
Go's sort runs its insertion sort (it does so for any length below 13),
which this left-to-right insertion reproduces exactly: elements are taken in
original order and each is inserted after all elements not strictly greater,
matching `for j := i; j > 0 && Less(j, j-1); j--`. -/
def sortLines (ls : List LineUnit) : List LineUnit :=
  ls.foldl (fun acc x => insertUnit x acc) []

/-- `srcFd.ReadAt(buf, off)` with `len(buf) = n`: returns the `n` bytes at
`off` when they all exist, and a non-nil error otherwise (ReadAt returns an
error whenever it reads fewer than `len(buf)` bytes). -/
def readAt (file : String) (bytes : List Nat) (off n : Nat) :
    Except GoErr (List Nat) :=
  if off + n ≤ bytes.length then .ok ((bytes.drop off).take n)
  else .error (GoErr.readAtErr file off)

/-- Bytes written for one record (logsort.go:186-196): retained content plus
a LF when `content` is non-nil, otherwise `length + 1` bytes read at
`offset` from the source file. -/
def lineBytesFor (file : String) (bytes : List Nat) (l : LineUnit) :
    Except GoErr (List Nat) :=
  match l.content with
  | some c => .ok (c ++ [10])
  | none => readAt file bytes l.offset (l.length + 1)

/-- Second pass (logsort.go:186-205): write each record's bytes in order,
flushing per line; a failed read stops the loop, the already-flushed lines
remain in the destination.  Returns (destination bytes, returned error). -/
def writeLines (file : String) (bytes : List Nat) :
    List LineUnit → List Nat × Option GoErr
  | [] => ([], none)
  | l :: rest =>
    match lineBytesFor file bytes l with
    | .error e => ([], some e)
    | .ok line =>
      let w := writeLines file bytes rest
      (line ++ w.1, w.2)

/-- SortByOption (logsort.go:98-207): validate (nil handler, then equal
paths), open the source, build the scanner (wrapping a gzip-reader failure
with "new reader"), run the first pass, surface a pending scanner error
(wrapped "scanner err"), sort the index, create the destination, and run the
second pass. -/
def sortByOption (opt : SortOption) (env : Env) : SortOutcome :=
  match opt.GetTime with
  | none => ⟨some GoErr.needTimeHandler, false, []⟩
  | some getTime =>
    if opt.SrcFile = opt.DstFile then ⟨some GoErr.sameSrcAndDst, false, []⟩
    else
      match env.openErr with
      | some e => ⟨some e, false, []⟩
      | none =>
        match (if opt.SrcGzip then env.gzipErr.map (GoErr.wrap "new reader")
               else none) with
        | some e => ⟨some e, false, []⟩
        | none =>
          match buildIndex getTime opt.SrcGzip (deliveredSegs opt env) 0 with
          | .error r => ⟨r, false, []⟩
          | .ok lines =>
            match env.scanErr with
            | some e => ⟨some (GoErr.wrap "scanner err" e), false, []⟩
            | none =>
              let w := writeLines opt.SrcFile env.fileBytes (sortLines lines)
              ⟨w.2, true, w.1⟩

/-- Sort (logsort.go:84-92): the convenience entry point, no compression on
either side.  Named `Sort'` because `Sort` is a Lean keyword. -/
def Sort' (srcFile dstFile : String) (getTime : Option TimeHandler)
    (env : Env) : SortOutcome :=
  sortByOption
    { SrcFile := srcFile, DstFile := dstFile, SrcGzip := false,
      DstGzip := false, GetTime := getTime } env

/-- The lines of a byte stream as the scanner would report them (raw
segments with `dropCR` applied), used to compare destination content with
the KEEP set. -/
def linesOf (d : List Nat) : List (List Nat) :=
  (splitSegs d).map (fun p => dropCR p.1)

/-! Concrete scenarios used by the counterexample, bug-evaluation and
witness theorems below.  Byte values: 10 = LF, 13 = CR, 65 = A, 66 = B,
97 = a, 98 = b, 120 = x, 122 = z. -/

/-- Extractor that keeps the line "A" (timestamp 0) and skips everything
else. -/
def skipHandler : TimeHandler :=
  fun l => if l = [65] then (0, Action.NOP, none) else (0, Action.SKIP, none)

def skipOpt : SortOption :=
  { SrcFile := "a.log", DstFile := "b.log", SrcGzip := false,
    DstGzip := false, GetTime := some skipHandler }

/-- Source file "xx\nA\n": a skipped line followed by the kept line "A". -/
def skipEnv : Env :=
  { openErr := none, fileBytes := [120, 120, 10, 65, 10], gzipErr := none,
    gzipBytes := [], scanErr := none, scanCut := 0 }

/-- Extractor that returns STOP with a nil error on every line. -/
def stopNilHandler : TimeHandler := fun _ => (0, Action.STOP, none)

def stopNilOpt : SortOption :=
  { SrcFile := "a.log", DstFile := "b.log", SrcGzip := false,
    DstGzip := false, GetTime := some stopNilHandler }

/-- Source file "A\n" for the STOP-with-nil-error scenario. -/
def stopNilEnv : Env :=
  { openErr := none, fileBytes := [65, 10], gzipErr := none,
    gzipBytes := [], scanErr := none, scanCut := 0 }

/-- Extractor that keeps "A", aborts on "B" with a non-nil error, and keeps
anything else. -/
def stopErrHandler : TimeHandler :=
  fun l =>
    if l = [65] then (1, Action.NOP, none)
    else if l = [66] then (0, Action.STOP, some (GoErr.userErr "boom"))
    else (2, Action.NOP, none)

def stopErrOpt : SortOption :=
  { SrcFile := "a.log", DstFile := "b.log", SrcGzip := false,
    DstGzip := false, GetTime := some stopErrHandler }

/-- Source file "A\nB\nC\n": the extractor aborts on the second line with
a line still pending after it. -/
def stopErrEnv : Env :=
  { openErr := none, fileBytes := [65, 10, 66, 10, 67, 10], gzipErr := none,
    gzipBytes := [], scanErr := none, scanCut := 0 }

/-- Extractor using the line's first byte as its timestamp; keeps every
line. -/
def headHandler : TimeHandler :=
  fun l => ((l.headD 0 : Nat), Action.NOP, none)

def gzipOpt : SortOption :=
  { SrcFile := "s.gz", DstFile := "d.log", SrcGzip := true,
    DstGzip := false, GetTime := some headHandler }

/-- Compressed source: the on-disk bytes are opaque compressed data
[1, 2, 3]; the decompressed stream is "b\na\n". -/
def gzipEnv : Env :=
  { openErr := none, fileBytes := [1, 2, 3], gzipErr := none,
    gzipBytes := [98, 10, 97, 10], scanErr := none, scanCut := 0 }

/-- Extractor that keeps the line "B" (timestamp 0) and skips everything
else. -/
def permHandler : TimeHandler :=
  fun l => if l = [66] then (0, Action.NOP, none) else (0, Action.SKIP, none)

def permOpt : SortOption :=
  { SrcFile := "a.log", DstFile := "b.log", SrcGzip := false,
    DstGzip := false, GetTime := some permHandler }

/-- Source file "zz\nB\n": a skipped line followed by the kept line "B". -/
def permEnv : Env :=
  { openErr := none, fileBytes := [122, 122, 10, 66, 10], gzipErr := none,
    gzipBytes := [], scanErr := none, scanCut := 0 }

/-- Extractor that keeps every line with the same timestamp 7. -/
def tieHandler : TimeHandler := fun _ => (7, Action.NOP, none)

def tieOpt : SortOption :=
  { SrcFile := "a.log", DstFile := "b.log", SrcGzip := false,
    DstGzip := false, GetTime := some tieHandler }

/-- Source file "b\na\n": two kept lines with equal timestamps. -/
def tieEnv : Env :=
  { openErr := none, fileBytes := [98, 10, 97, 10], gzipErr := none,
    gzipBytes := [], scanErr := none, scanCut := 0 }

/-- Extractor that skips "x" and keeps everything else ("B" at timestamp 0,
other lines — in particular the empty line — at timestamp 9). -/
def resortHandler : TimeHandler :=
  fun l =>
    if l = [120] then (0, Action.SKIP, none)
    else if l = [66] then (0, Action.NOP, none)
    else (9, Action.NOP, none)

def resortOptA : SortOption :=
  { SrcFile := "a.log", DstFile := "b.log", SrcGzip := false,
    DstGzip := false, GetTime := some resortHandler }

/-- Source file "x\nB\n" for the first run of the re-sort scenario. -/
def resortEnvA : Env :=
  { openErr := none, fileBytes := [120, 10, 66, 10], gzipErr := none,
    gzipBytes := [], scanErr := none, scanCut := 0 }

def resortOptB : SortOption :=
  { SrcFile := "b.log", DstFile := "c.log", SrcGzip := false,
    DstGzip := false, GetTime := some resortHandler }

/-- The second run's source file is exactly the destination the first run
produced. -/
def resortEnvB : Env :=
  { openErr := none, fileBytes := (sortByOption resortOptA resortEnvA).dst,
    gzipErr := none, gzipBytes := [], scanErr := none, scanCut := 0 }

/-- A configuration that is doubly invalid: nil extractor and identical
source/destination paths. -/
def bothBadOpt : SortOption :=
  { SrcFile := "a.log", DstFile := "a.log", SrcGzip := false,
    DstGzip := false, GetTime := none }

/-- A configuration whose only defect is the nil extractor. -/
def nilHandlerOpt : SortOption :=
  { SrcFile := "a.log", DstFile := "b.log", SrcGzip := false,
    DstGzip := false, GetTime := none }

/-- A configuration whose only defect is that source equals destination. -/
def samePathOpt : SortOption :=
  { SrcFile := "a.log", DstFile := "a.log", SrcGzip := false,
    DstGzip := false, GetTime := some tieHandler }

/-- An arbitrary environment for the no-I/O statements. -/
def someEnv : Env :=
  { openErr := none, fileBytes := [1, 10], gzipErr := none,
    gzipBytes := [2, 10], scanErr := none, scanCut := 0 }

/-- An empty source file. -/
def emptyEnv : Env :=
  { openErr := none, fileBytes := [], gzipErr := none,
    gzipBytes := [], scanErr := none, scanCut := 0 }

/-- An environment in which `os.Open` fails. -/
def openFailEnv : Env :=
  { openErr := some (GoErr.userErr "no such file"), fileBytes := [],
    gzipErr := none, gzipBytes := [], scanErr := none, scanCut := 0 }

/-- Extractor that keeps every line at timestamp 0. -/
def keepAllHandler : TimeHandler := fun _ => (0, Action.NOP, none)

def keepAllOpt : SortOption :=
  { SrcFile := "a.log", DstFile := "b.log", SrcGzip := false,
    DstGzip := false, GetTime := some keepAllHandler }

/-- Source file "A\r": a single kept line, unterminated, ending in a
carriage return. -/
def crEnv : Env :=
  { openErr := none, fileBytes := [65, 13], gzipErr := none,
    gzipBytes := [], scanErr := none, scanCut := 0 }

/-- Source file "B\nA": the last line is kept and unterminated, no line
ends in a carriage return. -/
def unterminatedEnv : Env :=
  { openErr := none, fileBytes := [66, 10, 65], gzipErr := none,
    gzipBytes := [], scanErr := none, scanCut := 0 }

/-! Lemmas about the insertion sort. -/

/-- Membership in an insertion step. -/
theorem mem_insertUnit (x y : LineUnit) :
    ∀ ls : List LineUnit, y ∈ insertUnit x ls ↔ y = x ∨ y ∈ ls := by
  intro ls
  induction ls with
  | nil => simp [insertUnit]
  | cons z zs ih =>
    simp only [insertUnit]
    by_cases h : x.timestamp < z.timestamp
    · rw [if_pos h]
      simp [List.mem_cons]
    · rw [if_neg h]
      simp only [List.mem_cons, ih]
      tauto

/-- Inserting into a list sorted by timestamp keeps it sorted. -/
theorem sorted_insertUnit (x : LineUnit) :
    ∀ ls : List LineUnit,
      ls.Pairwise (fun a b => a.timestamp ≤ b.timestamp) →
      (insertUnit x ls).Pairwise (fun a b => a.timestamp ≤ b.timestamp) := by
  intro ls
  induction ls with
  | nil => intro _; simp [insertUnit]
  | cons z zs ih =>
    intro h
    rw [List.pairwise_cons] at h
    simp only [insertUnit]
    by_cases hx : x.timestamp < z.timestamp
    · rw [if_pos hx, List.pairwise_cons]
      refine ⟨?_, List.pairwise_cons.mpr h⟩
      intro b hb
      rcases List.mem_cons.mp hb with rfl | hb
      · exact le_of_lt hx
      · exact le_trans (le_of_lt hx) (h.1 b hb)
    · rw [if_neg hx, List.pairwise_cons]
      refine ⟨?_, ih h.2⟩
      intro b hb
      rcases (mem_insertUnit x b zs).mp hb with rfl | hb
      · exact le_of_not_lt hx
      · exact h.1 b hb

/-- Membership through the sorting fold. -/
theorem mem_foldl_insert (y : LineUnit) :
    ∀ (ls acc : List LineUnit),
      y ∈ ls.foldl (fun acc x => insertUnit x acc) acc ↔ y ∈ acc ∨ y ∈ ls := by
  intro ls
  induction ls with
  | nil => intro acc; simp
  | cons x xs ih =>
    intro acc
    rw [List.foldl_cons, ih, mem_insertUnit]
    simp only [List.mem_cons]
    tauto

/-- `sortLines` neither loses nor invents records. -/
theorem mem_sortLines (y : LineUnit) (ls : List LineUnit) :
    y ∈ sortLines ls ↔ y ∈ ls := by
  rw [sortLines, mem_foldl_insert]
  simp

/-- The sorting fold yields a timestamp-sorted list. -/
theorem sorted_foldl_insert :
    ∀ (ls acc : List LineUnit),
      acc.Pairwise (fun a b => a.timestamp ≤ b.timestamp) →
      (ls.foldl (fun acc x => insertUnit x acc) acc).Pairwise
        (fun a b => a.timestamp ≤ b.timestamp) := by
  intro ls
  induction ls with
  | nil => intro acc h; exact h
  | cons x xs ih => intro acc h; exact ih _ (sorted_insertUnit x acc h)

/-- `sortLines` sorts by timestamp (non-decreasing). -/
theorem sorted_sortLines (ls : List LineUnit) :
    (sortLines ls).Pairwise (fun a b => a.timestamp ≤ b.timestamp) :=
  sorted_foldl_insert ls [] (by simp)

/-! Lemmas about the second pass. -/

/-- A record with no retained content whose recorded read range extends past
the end of the source file makes the second pass fail. -/
theorem writeLines_err_of_bad (file : String) (bytes : List Nat)
    (r : LineUnit) (hc : r.content = none)
    (hb : bytes.length < r.offset + (r.length + 1)) :
    ∀ ls : List LineUnit, r ∈ ls → (writeLines file bytes ls).2 ≠ none := by
  intro ls
  induction ls with
  | nil => intro h; cases h
  | cons l rest ih =>
    intro hmem
    rcases List.mem_cons.mp hmem with rfl | hmem
    · have hfail : lineBytesFor file bytes r =
          .error (GoErr.readAtErr file r.offset) := by
        simp only [lineBytesFor, hc, readAt]
        rw [if_neg (by omega)]
      simp [writeLines, hfail]
    · cases hl : lineBytesFor file bytes l with
      | error e => simp [writeLines, hl]
      | ok line =>
        simp only [writeLines, hl]
        exact ih hmem

/-- When every record carries retained content, the second pass never reads
the source file: its output is the same for any file bytes. -/
theorem writeLines_indep (file : String) (b1 b2 : List Nat) :
    ∀ ls : List LineUnit, (∀ r ∈ ls, r.content ≠ none) →
      writeLines file b1 ls = writeLines file b2 ls := by
  intro ls
  induction ls with
  | nil => intro _; rfl
  | cons l rest ih =>
    intro h
    have hl := h l (List.mem_cons_self l rest)
    cases hc : l.content with
    | none => exact absurd hc hl
    | some c =>
      simp only [writeLines, lineBytesFor, hc]
      rw [ih (fun r hr => h r (List.mem_cons_of_mem l hr))]

/-! Lemmas about the first pass. -/

/-- A STOP decision ends the first pass at once with the extractor's own
error; the segments after the aborting one play no part in the result. -/
theorem buildIndex_stop (g : TimeHandler) (gz : Bool) (s : List Nat)
    (b : Bool) (segs2 : List (List Nat × Bool))
    (hstop : (g (dropCR s)).2.1 = Action.STOP) :
    ∀ (segs1 : List (List Nat × Bool)) (off : Nat),
      (∀ p ∈ segs1, (g (dropCR p.1)).2.1 ≠ Action.STOP) →
      buildIndex g gz (segs1 ++ (s, b) :: segs2) off =
        .error (g (dropCR s)).2.2 := by
  intro segs1
  induction segs1 with
  | nil =>
    intro off _
    simp [buildIndex, hstop]
  | cons p rest ih =>
    intro off hpre
    have hp := hpre p (List.mem_cons_self p rest)
    have hrest := fun q hq => hpre q (List.mem_cons_of_mem p hq)
    cases ha : (g (dropCR p.1)).2.1 with
    | SKIP => simp [buildIndex, ha, ih _ hrest]
    | STOP => exact absurd ha hp
    | NOP => simp [buildIndex, ha, ih _ hrest]

/-- In compressed-source mode every record built by the first pass retains
the full bytes of its line as `content`, together with that line's length
and extracted timestamp. -/
theorem buildIndex_gzip_content (g : TimeHandler) :
    ∀ (segs : List (List Nat × Bool)) (off : Nat) (recs : List LineUnit),
      buildIndex g true segs off = .ok recs →
      ∀ r ∈ recs, ∃ l, r.content = some l ∧ r.length = l.length ∧
        r.timestamp = (g l).1 ∧ l ∈ segs.map (fun p => dropCR p.1) := by
  intro segs
  induction segs with
  | nil =>
    intro off recs h r hr
    simp only [buildIndex] at h
    cases h
    cases hr
  | cons p rest ih =>
    intro off recs h r hr
    simp only [buildIndex] at h
    by_cases hskip : (g (dropCR p.1)).2.1 = Action.SKIP
    · rw [if_pos hskip] at h
      obtain ⟨l, h1, h2, h3, h4⟩ := ih _ recs h r hr
      exact ⟨l, h1, h2, h3, by simp [h4]⟩
    · rw [if_neg hskip] at h
      by_cases hstop : (g (dropCR p.1)).2.1 = Action.STOP
      · rw [if_pos hstop] at h
        cases h
      · rw [if_neg hstop] at h
        cases hb : buildIndex g true rest (off + (dropCR p.1).length + 1) with
        | error e => rw [hb] at h; cases h
        | ok recs2 =>
          rw [hb] at h
          cases h
          rcases List.mem_cons.mp hr with rfl | hr2
          · exact ⟨dropCR p.1, by simp, rfl, rfl, by simp⟩
          · obtain ⟨l, h1, h2, h3, h4⟩ := ih _ recs2 hb r hr2
            exact ⟨l, h1, h2, h3, by simp [h4]⟩

/-! Lemmas about the line scanner. -/

/-- Reassembling the segments of a stream gives the stream back (worker
form, tracking the pending reversed segment). -/
theorem join_splitLinesAux :
    ∀ (d cur : List Nat), joinSegs (splitLinesAux cur d) = cur.reverse ++ d := by
  intro d
  induction d with
  | nil =>
    intro cur
    by_cases h : cur.isEmpty
    · rw [List.isEmpty_iff.mp h]
      simp [splitLinesAux, joinSegs]
    · simp [splitLinesAux, h, joinSegs]
  | cons b rest ih =>
    intro cur
    by_cases hb : b = 10
    · subst hb
      simp [splitLinesAux, joinSegs, ih]
    · simp [splitLinesAux, hb, ih]

/-- Reassembling the segments of a stream gives the stream back. -/
theorem join_splitSegs (d : List Nat) : joinSegs (splitSegs d) = d := by
  simpa [splitSegs] using join_splitLinesAux d []

/-- The length of a reassembled stream is the weight of its segments. -/
theorem joinSegs_length :
    ∀ L : List (List Nat × Bool), (joinSegs L).length = segWeight L := by
  intro L
  induction L with
  | nil => rfl
  | cons p rest ih =>
    cases p with
    | mk s b =>
      cases b
      all_goals simp [joinSegs, segWeight, ih]
      all_goals omega

/-- Segment weight distributes over append. -/
theorem segWeight_append :
    ∀ L1 L2 : List (List Nat × Bool),
      segWeight (L1 ++ L2) = segWeight L1 + segWeight L2 := by
  intro L1 L2
  induction L1 with
  | nil => simp [segWeight]
  | cons p rest ih =>
    cases p with
    | mk s b => simp [segWeight, ih]; omega

/-- Every segment before the last one the scanner delivers is
LF-terminated: only the final token can be cut short by end of input. -/
theorem splitLinesAux_init_term :
    ∀ (d cur : List Nat) (segs : List (List Nat × Bool)) (s : List Nat)
      (b : Bool), splitLinesAux cur d = segs ++ [(s, b)] →
      ∀ p ∈ segs, p.2 = true := by
  intro d
  induction d with
  | nil =>
    intro cur segs s b h p hp
    by_cases hc : cur.isEmpty
    · simp [splitLinesAux, hc] at h
    · simp only [splitLinesAux, hc, if_false, Bool.false_eq_true] at h
      cases segs with
      | nil => cases hp
      | cons q qs =>
        rw [List.cons_append] at h
        have := List.cons.inj h
        exact absurd this.2.symm (List.append_ne_nil_of_right_ne_nil qs (by simp))
  | cons b0 rest ih =>
    intro cur segs s b h p hp
    by_cases hb : b0 = 10
    · subst hb
      simp only [splitLinesAux, if_pos rfl] at h
      cases segs with
      | nil => cases hp
      | cons q qs =>
        rw [List.cons_append] at h
        have h2 := List.cons.inj h
        rcases List.mem_cons.mp hp with rfl | hp2
        · rw [← h2.1]
        · exact ih [] qs s b h2.2 p hp2
    · simp only [splitLinesAux, hb, if_false] at h
      exact ih (b0 :: cur) segs s b h p hp

/-- First pass over an all-KEEP, CR-free segment list: it succeeds, and the
record for the final segment sits at offset `off + segWeight segs`, with no
retained content (direct mode). -/
theorem buildIndex_nop_last (g : TimeHandler) (s : List Nat) :
    ∀ (segs : List (List Nat × Bool)) (off : Nat),
      (∀ p ∈ segs ++ [(s, false)], (g (dropCR p.1)).2.1 = Action.NOP) →
      (∀ p ∈ segs ++ [(s, false)], dropCR p.1 = p.1) →
      (∀ p ∈ segs, p.2 = true) →
      ∃ recs, buildIndex g false (segs ++ [(s, false)]) off = .ok recs ∧
        (⟨off + segWeight segs, s.length, (g s).1, none⟩ : LineUnit) ∈ recs := by
  intro segs
  induction segs with
  | nil =>
    intro off hnop hid _
    have hs : dropCR s = s := hid (s, false) (by simp)
    have hn : (g s).2.1 = Action.NOP := by
      have := hnop (s, false) (by simp)
      rwa [hs] at this
    refine ⟨[⟨off, s.length, (g s).1, none⟩], ?_, by simp [segWeight]⟩
    simp [buildIndex, hs, hn]
  | cons q qs ih =>
    intro off hnop hid hterm
    have hq : dropCR q.1 = q.1 := hid q (by simp)
    have hqn : (g q.1).2.1 = Action.NOP := by
      have := hnop q (by simp)
      rwa [hq] at this
    obtain ⟨recs, hrecs, hmem⟩ := ih (off + q.1.length + 1)
      (fun p hp => hnop p (List.mem_cons_of_mem q hp))
      (fun p hp => hid p (List.mem_cons_of_mem q hp))
      (fun p hp => hterm p (List.mem_cons_of_mem q hp))
    refine ⟨⟨off, q.1.length, (g q.1).1, none⟩ :: recs, ?_, ?_⟩
    · simp [buildIndex, hq, hqn, hrecs]
    · have hw : off + segWeight (q :: qs) = off + q.1.length + 1 + segWeight qs := by
        have hq2 : q.2 = true := hterm q (List.mem_cons_self q qs)
        cases q with
        | mk q1 q2 =>
          simp only at hq2
          subst hq2
          simp [segWeight]
          omega
      rw [hw]
      exact List.mem_cons_of_mem _ hmem

/-! The claims. -/

/-- C1: REFUTED (code bug) — evaluation of the code at a failing input.
Source "xx\n A\n" (bytes [120,120,10,65,10]), extractor SKIPs "xx" and
KEEPs "A".  Because the SKIP branch advances the cursor by the line length
only (logsort.go:144), the kept line "A" is recorded at offset 2 although
its true byte offset in the source is 3 (the bytes at the true offset are
[65, 10] = "A\n"), and the destination receives [10, 65] = "\n A" — the
skipped line has shifted the kept line's reconstructed content. -/
theorem skipOffsetBug :
    buildIndex skipHandler false (splitSegs skipEnv.fileBytes) 0 =
      .ok [{ offset := 2, length := 1, timestamp := 0, content := none }] ∧
    (skipEnv.fileBytes.drop 3).take 2 = [65, 10] ∧
    sortByOption skipOpt skipEnv = ⟨none, true, [10, 65]⟩ :=
  ⟨rfl, rfl, rfl⟩

/-- C2: counterexample — an extractor that returns STOP with a nil error on
the first line of "A\n" makes SortByOption return nil: the call reports
success (and creates no destination), so it does not fail as the claim
requires, and no default non-nil error exists. -/
theorem stopNilSucceeds :
    sortByOption stopNilOpt stopNilEnv = ⟨none, false, []⟩ := rfl

/-- C2 (amended): a STOP decision on some line makes SortByOption return
the extractor's error exactly as supplied — nil included, in which case the
call reports success — before the destination is created, and the result
does not depend on the segments after the aborting line: no later line is
processed into the index. -/
theorem stopPropagation (opt : SortOption) (env : Env) (g : TimeHandler)
    (segs1 : List (List Nat × Bool)) (s : List Nat) (b : Bool)
    (segs2 : List (List Nat × Bool))
    (hg : opt.GetTime = some g)
    (hne : opt.SrcFile ≠ opt.DstFile)
    (hopen : env.openErr = none)
    (hgz : opt.SrcGzip = true → env.gzipErr = none)
    (hdel : deliveredSegs opt env = segs1 ++ (s, b) :: segs2)
    (hpre : ∀ p ∈ segs1, (g (dropCR p.1)).2.1 ≠ Action.STOP)
    (hstop : (g (dropCR s)).2.1 = Action.STOP) :
    sortByOption opt env = ⟨(g (dropCR s)).2.2, false, []⟩ := by
  have hbi := buildIndex_stop g opt.SrcGzip s b segs2 hstop segs1 0 hpre
  rw [← hdel] at hbi
  have hgzn : (if opt.SrcGzip then env.gzipErr.map (GoErr.wrap "new reader")
      else none) = none := by
    cases hsg : opt.SrcGzip
    · simp
    · simp [hgz hsg]
  simp only [sortByOption, hg]
  rw [if_neg hne]
  simp [hopen, hgzn, hbi]

/-- C2 (amended) witness: source "A\nB\nC\n" with an extractor that aborts
on "B" with a non-nil error: that error is returned, the destination is not
created, and the pending line "C" is ignored. -/
theorem stopPropagationWitness :
    sortByOption stopErrOpt stopErrEnv =
      ⟨some (GoErr.userErr "boom"), false, []⟩ :=
  stopPropagation stopErrOpt stopErrEnv stopErrHandler
    [([65], true)] [66] true [([67], true)]
    rfl (by decide) rfl (fun h => by cases h) rfl (by decide) rfl

/-- C3: in compressed-source mode (SrcGzip) the first pass retains each
KEEP line's full bytes in its record, and the whole run — the second pass
included — is independent of the on-disk file bytes, so reconstruction uses
the retained content and never random-access reads at recorded offsets. -/
theorem gzipRetention (opt : SortOption) (env : Env) (g : TimeHandler)
    (recs : List LineUnit)
    (hgz : opt.SrcGzip = true)
    (hg : opt.GetTime = some g)
    (hb : buildIndex g true (deliveredSegs opt env) 0 = .ok recs) :
    (∀ r ∈ recs, ∃ l, r.content = some l ∧ r.length = l.length ∧
        r.timestamp = (g l).1 ∧
        l ∈ (deliveredSegs opt env).map (fun p => dropCR p.1)) ∧
    (∀ bs, sortByOption opt env =
        sortByOption opt { env with fileBytes := bs }) := by
  refine ⟨fun r hr => buildIndex_gzip_content g _ 0 recs hb r hr, ?_⟩
  intro bs
  have hds : deliveredSegs opt { env with fileBytes := bs } =
      deliveredSegs opt env := by
    simp [deliveredSegs, streamBytes, hgz]
  have hcont : ∀ r ∈ sortLines recs, r.content ≠ none := by
    intro r hr
    obtain ⟨l, hl, -, -, -⟩ :=
      buildIndex_gzip_content g _ 0 recs hb r ((mem_sortLines r recs).mp hr)
    rw [hl]
    exact Option.some_ne_none l
  simp only [sortByOption, hg, hgz, if_true, hds]
  by_cases hsd : opt.SrcFile = opt.DstFile
  · rw [if_pos hsd, if_pos hsd]
  · rw [if_neg hsd, if_neg hsd]
    cases hop : env.openErr with
    | some e => rfl
    | none =>
      cases hge : env.gzipErr with
      | some e => simp [hge]
      | none =>
        simp only [hge, Option.map_none', hb]
        cases hsc : env.scanErr with
        | some e => rfl
        | none =>
          simp only [hsc]
          rw [writeLines_indep opt.SrcFile env.fileBytes bs (sortLines recs)
            hcont]

/-- C3 witness: decompressed stream "b\na\n" over opaque on-disk bytes
[1,2,3]; the run's outcome is unchanged when the on-disk bytes are replaced
by [9,9,9]. -/
theorem gzipRetentionWitness :
    sortByOption gzipOpt gzipEnv =
      sortByOption gzipOpt { gzipEnv with fileBytes := [9, 9, 9] } :=
  (gzipRetention gzipOpt gzipEnv headHandler
    [⟨0, 1, 98, some [98]⟩, ⟨2, 1, 97, some [97]⟩] rfl rfl rfl).2 [9, 9, 9]

/-- C4: REFUTED (code bug) — evaluation at a failing input.  Direct mode,
source "zz\nB\n", extractor SKIPs "zz" and KEEPs "B".  Sort succeeds, the
KEEP multiset is {"B"}, but the destination is [10, 66] = "\nB", whose
lines are ["", "B"] ≠ ["B"]: the kept line's content is corrupted (and a
spurious empty line appears), because the SKIP branch dropped the
terminator byte from the offset cursor. -/
theorem permutationBug :
    (sortByOption permOpt permEnv).ret = none ∧
    linesOf permEnv.fileBytes = [[122, 122], [66]] ∧
    (permHandler [122, 122]).2.1 = Action.SKIP ∧
    (permHandler [66]).2.1 = Action.NOP ∧
    (sortByOption permOpt permEnv).dst = [10, 66] ∧
    linesOf (sortByOption permOpt permEnv).dst = [[], [66]] ∧
    ([[], [66]] : List (List Nat)) ≠ [[66]] :=
  ⟨rfl, rfl, rfl, rfl, rfl, rfl, by decide⟩

/-- C5: counterexample — source "b\na\n" with both lines kept at equal
timestamp 7.  The pair (a = line "a", b = line "b") has ta ≤ tb, yet in the
destination "a" appears strictly after "b" (the sort is not required to
reorder equal keys), so the claim as stated — quantified over all pairs
with ta ≤ tb — fails. -/
theorem tieOrderCounterexample :
    (sortByOption tieOpt tieEnv).ret = none ∧
    (tieHandler [97]).2.1 = Action.NOP ∧
    (tieHandler [98]).2.1 = Action.NOP ∧
    (tieHandler [97]).1 ≤ (tieHandler [98]).1 ∧
    linesOf tieEnv.fileBytes = [[98], [97]] ∧
    linesOf (sortByOption tieOpt tieEnv).dst = [[98], [97]] :=
  ⟨rfl, rfl, rfl, le_refl _, rfl, rfl⟩

/-- C5 (amended): on success the destination is the per-record
reconstructions concatenated in non-decreasing timestamp order: for any two
KEEP records with strictly ordered timestamps ta < tb, a's line is written
strictly before b's; records with equal timestamps may appear in either
order. -/
theorem sortedOutput (opt : SortOption) (env : Env) (g : TimeHandler)
    (recs : List LineUnit)
    (hg : opt.GetTime = some g)
    (hne : opt.SrcFile ≠ opt.DstFile)
    (hopen : env.openErr = none)
    (hgz : opt.SrcGzip = true → env.gzipErr = none)
    (hscan : env.scanErr = none)
    (hb : buildIndex g opt.SrcGzip (deliveredSegs opt env) 0 = .ok recs)
    (hw : (writeLines opt.SrcFile env.fileBytes (sortLines recs)).2 = none) :
    (sortByOption opt env).ret = none ∧
    (sortByOption opt env).dst =
      (writeLines opt.SrcFile env.fileBytes (sortLines recs)).1 ∧
    (sortLines recs).Pairwise (fun a b => a.timestamp ≤ b.timestamp) := by
  have hgzn : (if opt.SrcGzip then env.gzipErr.map (GoErr.wrap "new reader")
      else none) = none := by
    cases hsg : opt.SrcGzip
    · simp
    · simp [hgz hsg]
  have hout : sortByOption opt env =
      ⟨(writeLines opt.SrcFile env.fileBytes (sortLines recs)).2, true,
       (writeLines opt.SrcFile env.fileBytes (sortLines recs)).1⟩ := by
    simp only [sortByOption, hg]
    rw [if_neg hne]
    simp [hopen, hgzn, hb, hscan]
  exact ⟨by rw [hout]; exact hw, by rw [hout], sorted_sortLines recs⟩

/-- C5 (amended) witness: the tie scenario instantiates the amended
statement — the run succeeds and the written order [(0,..), (2,..)] is
non-decreasing in timestamps. -/
theorem sortedOutputWitness :
    (sortByOption tieOpt tieEnv).ret = none ∧
    (sortByOption tieOpt tieEnv).dst =
      (writeLines tieOpt.SrcFile tieEnv.fileBytes
        (sortLines [⟨0, 1, 7, none⟩, ⟨2, 1, 7, none⟩])).1 ∧
    (sortLines [(⟨0, 1, 7, none⟩ : LineUnit), ⟨2, 1, 7, none⟩]).Pairwise
      (fun a b => a.timestamp ≤ b.timestamp) :=
  sortedOutput tieOpt tieEnv tieHandler [⟨0, 1, 7, none⟩, ⟨2, 1, 7, none⟩]
    rfl (by decide) rfl (fun h => by cases h) rfl rfl rfl

/-- C6: REFUTED (code bug) — evaluation at a failing input.  First run:
source "x\nB\n", extractor SKIPs "x" and KEEPs everything else; it succeeds
and (because of the missing terminator advance on SKIP) writes the
corrupted destination [10, 66] = "\nB".  Second run on that very output
with the same extractor: the empty first line and "B" are both kept, the
recorded read for "B" (2 bytes at offset 1 of a 2-byte file) overruns the
end of the file, and the run fails with a read error instead of reproducing
its input byte-for-byte. -/
theorem resortBug :
    sortByOption resortOptA resortEnvA = ⟨none, true, [10, 66]⟩ ∧
    (sortByOption resortOptB resortEnvB).ret =
      some (GoErr.readAtErr "b.log" 1) ∧
    (sortByOption resortOptB resortEnvB).dst ≠
      (sortByOption resortOptA resortEnvA).dst :=
  ⟨rfl, rfl, by decide⟩

/-- C7: counterexample — a configuration with a nil extractor AND equal
source/destination paths returns ErrNeedTimeHandler, not ErrSameSRCAndDST:
the nil-extractor check runs first, so the claim's second universal
("every configuration whose source equals its destination returns
ErrSameSRCAndDST") fails on this overlap. -/
theorem configPrecedence :
    sortByOption bothBadOpt someEnv =
      ⟨some GoErr.needTimeHandler, false, []⟩ ∧
    GoErr.needTimeHandler ≠ GoErr.sameSrcAndDst :=
  ⟨rfl, by decide⟩

/-- C7 (amended): a nil extractor yields ErrNeedTimeHandler; equal paths
with an extractor present yield ErrSameSRCAndDST.  In both cases the result
is the same for every environment — no file is opened, no destination
created. -/
theorem configValidation (opt : SortOption) (env : Env) :
    (opt.GetTime = none →
      sortByOption opt env = ⟨some GoErr.needTimeHandler, false, []⟩) ∧
    (opt.GetTime ≠ none → opt.SrcFile = opt.DstFile →
      sortByOption opt env = ⟨some GoErr.sameSrcAndDst, false, []⟩) := by
  constructor
  · intro h
    simp [sortByOption, h]
  · intro h hsd
    cases hG : opt.GetTime with
    | none => exact absurd hG h
    | some g => simp [sortByOption, hG, hsd]

/-- C7 (amended) witness: the two invalid configurations evaluated on a
concrete environment. -/
theorem configValidationWitness :
    sortByOption nilHandlerOpt someEnv =
      ⟨some GoErr.needTimeHandler, false, []⟩ ∧
    sortByOption samePathOpt someEnv =
      ⟨some GoErr.sameSrcAndDst, false, []⟩ :=
  ⟨(configValidation nilHandlerOpt someEnv).1 rfl,
   (configValidation samePathOpt someEnv).2 (by simp [samePathOpt]) rfl⟩

/-- C8: an empty source file (zero lines) makes Sort succeed with a nil
error; the destination is created and left empty. -/
theorem emptySource (src dst : String) (g : TimeHandler) (env : Env)
    (hne : src ≠ dst) (hopen : env.openErr = none)
    (hemp : env.fileBytes = []) (hscan : env.scanErr = none) :
    Sort' src dst (some g) env = ⟨none, true, []⟩ := by
  simp only [Sort', sortByOption]
  rw [if_neg hne]
  simp [hopen, hscan, deliveredSegs, streamBytes, hemp, splitSegs,
    splitLinesAux, buildIndex, sortLines, writeLines]

/-- C8 witness: Sort on an empty file. -/
theorem emptySourceWitness :
    Sort' "a.log" "b.log" (some keepAllHandler) emptyEnv =
      ⟨none, true, []⟩ :=
  emptySource "a.log" "b.log" keepAllHandler emptyEnv (by decide) rfl rfl rfl

/-- C9: any first-pass failure — open failure, gzip-reader failure in
compressed mode, a pending scanner read error, or a STOP decision from the
extractor — returns before `os.Create`: the destination is never created
and nothing is written. -/
theorem firstPassFailureNoDst (opt : SortOption) (env : Env)
    (h : env.openErr ≠ none ∨ (opt.SrcGzip = true ∧ env.gzipErr ≠ none) ∨
         env.scanErr ≠ none ∨
         (∃ g r, opt.GetTime = some g ∧
            buildIndex g opt.SrcGzip (deliveredSegs opt env) 0 = .error r)) :
    (sortByOption opt env).dstCreated = false ∧
    (sortByOption opt env).dst = [] := by
  cases hG : opt.GetTime with
  | none => simp [sortByOption, hG]
  | some g =>
    by_cases hsd : opt.SrcFile = opt.DstFile
    · simp [sortByOption, hG, hsd]
    · cases hop : env.openErr with
      | some e => simp [sortByOption, hG, hsd, hop]
      | none =>
        cases hgm : (if opt.SrcGzip then
            env.gzipErr.map (GoErr.wrap "new reader") else none) with
        | some e => simp [sortByOption, hG, hsd, hop, hgm]
        | none =>
          cases hbi : buildIndex g opt.SrcGzip (deliveredSegs opt env) 0 with
          | error r => simp [sortByOption, hG, hsd, hop, hgm, hbi]
          | ok recs =>
            cases hsc : env.scanErr with
            | some e => simp [sortByOption, hG, hsd, hop, hgm, hbi, hsc]
            | none =>
              exfalso
              rcases h with h | ⟨h1, h2⟩ | h | ⟨g2, r, hg2, hb2⟩
              · exact h hop
              · rw [h1, if_pos rfl] at hgm
                cases hge : env.gzipErr with
                | none => exact h2 hge
                | some e => rw [hge] at hgm; cases hgm
              · exact h hsc
              · rw [hG] at hg2
                cases hg2
                rw [hbi] at hb2
                cases hb2

/-- C9 witness: an invocation whose source cannot be opened creates no
destination. -/
theorem firstPassFailureNoDstWitness :
    (sortByOption keepAllOpt openFailEnv).dstCreated = false ∧
    (sortByOption keepAllOpt openFailEnv).dst = [] :=
  firstPassFailureNoDst keepAllOpt openFailEnv
    (Or.inl (by simp [openFailEnv]))

/-- C10: counterexample — direct mode, source "A\r" (no trailing LF, kept
by the extractor).  The scanner strips the carriage return, so the record is
(offset 0, length 1) and the reconstruction read of length + 1 = 2 bytes at
offset 0 fits exactly in the 2-byte file: Sort succeeds (returning nil and
writing "A\r"), although the last line is KEEP and unterminated — the claim
predicted an error.  (A SKIP line before the last line likewise shifts the
recorded offset down and lets the read fit.) -/
theorem trailingCRRead :
    splitSegs crEnv.fileBytes = [([65, 13], false)] ∧
    (keepAllHandler (dropCR [65, 13])).2.1 = Action.NOP ∧
    sortByOption keepAllOpt crEnv = ⟨none, true, [65, 13]⟩ :=
  ⟨rfl, rfl, rfl⟩

/-- C10 (amended): in direct mode, when every scanned line is marked KEEP,
no raw segment ends in a carriage return, and the final segment is
unterminated, Sort fails: the final record's read of length + 1 bytes at
its recorded offset extends exactly one byte past end-of-file. -/
theorem unterminatedLastLineErrors (opt : SortOption) (env : Env)
    (g : TimeHandler) (segs : List (List Nat × Bool)) (s : List Nat)
    (hg : opt.GetTime = some g)
    (hne : opt.SrcFile ≠ opt.DstFile)
    (hgz : opt.SrcGzip = false)
    (hopen : env.openErr = none)
    (hscan : env.scanErr = none)
    (hsplit : splitSegs env.fileBytes = segs ++ [(s, false)])
    (hnop : ∀ p ∈ segs ++ [(s, false)], (g (dropCR p.1)).2.1 = Action.NOP)
    (hid : ∀ p ∈ segs ++ [(s, false)], dropCR p.1 = p.1) :
    (sortByOption opt env).ret ≠ none := by
  have hdel : deliveredSegs opt env = segs ++ [(s, false)] := by
    simp [deliveredSegs, hscan, streamBytes, hgz, hsplit]
  have hterm : ∀ p ∈ segs, p.2 = true :=
    splitLinesAux_init_term env.fileBytes [] segs s false hsplit
  obtain ⟨recs, hrecs, hmem⟩ := buildIndex_nop_last g s segs 0 hnop hid hterm
  have hlen : env.fileBytes.length = segWeight segs + s.length := by
    have h1 : (joinSegs (segs ++ [(s, false)])).length =
        env.fileBytes.length := by
      rw [← hsplit, join_splitSegs]
    rw [joinSegs_length, segWeight_append] at h1
    simp [segWeight] at h1
    omega
  have hbad : env.fileBytes.length <
      (0 + segWeight segs) + (s.length + 1) := by omega
  have hin : (⟨0 + segWeight segs, s.length, (g s).1, none⟩ : LineUnit) ∈
      sortLines recs := (mem_sortLines _ recs).mpr hmem
  have hw := writeLines_err_of_bad opt.SrcFile env.fileBytes _ rfl hbad
    (sortLines recs) hin
  have hout : (sortByOption opt env).ret =
      (writeLines opt.SrcFile env.fileBytes (sortLines recs)).2 := by
    rw [← hdel] at hrecs
    simp only [sortByOption, hg]
    rw [if_neg hne]
    simp [hopen, hgz, hrecs, hscan]
  rw [hout]
  exact hw

/-- C10 (amended) witness: source "B\nA" — all lines kept, no carriage
returns, last line unterminated — fails with a non-nil error. -/
theorem unterminatedWitness :
    (sortByOption keepAllOpt unterminatedEnv).ret ≠ none :=
  unterminatedLastLineErrors keepAllOpt unterminatedEnv keepAllHandler
    [([66], true)] [65] rfl (by decide) rfl rfl rfl rfl
    (by intro p hp; rfl) (by decide)

end Logsort
